import Mathlib

/-!
# Gem process supervisor — shallow embedding and verification

This file embeds the core lifecycle engine of the Gem process supervisor
(`core.ProcessManager` and friends) as Lean functions and proves or refutes
the frozen specification claims against it.

The registry (`ProcessManager.processes`, a Go map from name to record) is
modelled as an association list with map semantics.  External effects
(hook scripts, user lookup, log-file opens, spawning, signalling, the cron
engine, the file system) are modelled by an oracle structure `OSEnv`: each
fallible OS call is an oracle consultation, so every code path of the Go
source is reachable by choosing the oracle.  The registry mutex is
modelled explicitly on the start path (`startGo`), where its
non-reentrancy decides whether a call returns at all.
-/

namespace Gem

/-- Embeds `config.ProcessConfig` (the fields the lifecycle engine reads).
`clusterInstances` is `Cluster.Instances`; hooks are the `Scripts` block. -/
structure ProcessConfig where
  name : String
  command : String
  args : List String
  workingDir : String
  environment : List (String × String)
  restart : String
  maxRestarts : Nat
  restartDelay : Nat
  clusterInstances : Nat
  clusterMode : String
  logStdout : String
  logStderr : String
  user : String
  group : String
  preStart : String
  postStart : String
  preStop : String
  postStop : String
  autoStart : Bool
  deriving Repr, DecidableEq

/-- Embeds `core.ManagedProcess` (the fields the claims are about).
`pid = 0` stands for the Go zero value (no process of its own);
`clusterProcs` is `ClusterProcs`.  The Go struct literal in `StartProcess`
omits `Restarts`, so a freshly created record carries `restarts = 0`. -/
structure ManagedProcess where
  config : ProcessConfig
  pid : Nat
  status : String
  restarts : Nat
  clusterProcs : List ManagedProcess
  deriving Repr

/-- Equality of records is decidable (the automatic deriving does not
handle the nested `List` field). -/
def ManagedProcess.decEq : DecidableEq ManagedProcess
  | ⟨c1, p1, s1, r1, l1⟩, ⟨c2, p2, s2, r2, l2⟩ =>
    if h4 : c1 = c2 ∧ p1 = p2 ∧ s1 = s2 ∧ r1 = r2 then
      match decList l1 l2 with
      | isTrue h2 => isTrue (by
          obtain ⟨e1, e2, e3, e4⟩ := h4
          cases e1; cases e2; cases e3; cases e4; cases h2; rfl)
      | isFalse h => isFalse (by intro he; cases he; exact h rfl)
    else isFalse (by intro he; cases he; exact h4 ⟨rfl, rfl, rfl, rfl⟩)
where decList : (l1 l2 : List ManagedProcess) → Decidable (l1 = l2)
  | [], [] => isTrue rfl
  | [], _ :: _ => isFalse (by simp)
  | _ :: _, [] => isFalse (by simp)
  | a :: t1, b :: t2 =>
    match ManagedProcess.decEq a b with
    | isFalse h => isFalse (by intro he; cases he; exact h rfl)
    | isTrue h1 =>
      match decList t1 t2 with
      | isTrue h2 => isTrue (by cases h1; cases h2; rfl)
      | isFalse h => isFalse (by intro he; cases he; exact h rfl)

instance : DecidableEq ManagedProcess := ManagedProcess.decEq

instance {e a : Type} [DecidableEq e] [DecidableEq a] : DecidableEq (Except e a)
  | .ok x, .ok y =>
    if h : x = y then isTrue (by rw [h])
    else isFalse (by intro he; cases he; exact h rfl)
  | .ok _, .error _ => isFalse (fun h => Except.noConfusion h)
  | .error _, .ok _ => isFalse (fun h => Except.noConfusion h)
  | .error x, .error y =>
    if h : x = y then isTrue (by rw [h])
    else isFalse (by intro he; cases he; exact h rfl)

/-- The in-memory registry `ProcessManager.processes`, an association list
standing for the Go map (iteration order of a Go map is arbitrary; the list
order is one admissible order). -/
abbrev Registry := List (String × ManagedProcess)

/-- Go map read `pm.processes[name]`. -/
def lookupReg (pm : Registry) (n : String) : Option ManagedProcess :=
  (pm.find? (fun e => e.1 == n)).map (fun e => e.2)

/-- Go map write `pm.processes[name] = proc` (insert or overwrite). -/
def insertReg (pm : Registry) (n : String) (p : ManagedProcess) : Registry :=
  (pm.filter (fun e => e.1 != n)) ++ [(n, p)]

/-- Go map delete `delete(pm.processes, name)`. -/
def removeReg (pm : Registry) (n : String) : Registry :=
  pm.filter (fun e => e.1 != n)

/-- Oracle for the external world.  Each fallible OS interaction of the Go
code is one field; the lifecycle functions consult it in source order. -/
structure OSEnv where
  /-- Whether `runScript s` (a `sh -c` child for a hook string) exits zero. -/
  runScriptOk : String → Bool
  /-- Whether `setProcessUser` (user/group lookup and credential setup) succeeds. -/
  userOk : String → String → Bool
  /-- opening the stdout log file in `setupLogging` succeeds. -/
  stdoutOpenOk : ProcessConfig → Bool
  /-- opening the stderr log file in `setupLogging` succeeds. -/
  stderrOpenOk : ProcessConfig → Bool
  /-- Result of `cmd.Start()`: `some pid` on success, `none` on spawn failure. -/
  spawn : ProcessConfig → Option Nat
  /-- Whether `proc.Cmd.Process.Kill()` / `.Signal(SIGTERM)` succeeds for this name. -/
  signalOk : String → Bool

/-- The non-cluster body of `core.(*ProcessManager).StartProcess`
(part_007 lines 109–192): pre-start hook, user/group setup, `setupLogging`,
`cmd.Start()`, then the record is created (with `Restarts` left at its zero
value) and stored.  PID-file and config-file write failures are only logged
and do not alter control flow, so they do not appear. -/
def startNonCluster (env : OSEnv) (pm : Registry) (cfg : ProcessConfig) :
    Registry × Except String ManagedProcess :=
  if cfg.preStart ≠ "" ∧ ¬ env.runScriptOk cfg.preStart then
    (pm, .error ("pre-start script failed: " ++ cfg.name))
  else if cfg.user ≠ "" ∧ ¬ env.userOk cfg.user cfg.group then
    (pm, .error ("user lookup failed: " ++ cfg.name))
  else if ¬ env.stdoutOpenOk cfg then
    (pm, .error ("cannot open stdout log: " ++ cfg.name))
  else if ¬ env.stderrOpenOk cfg then
    (pm, .error ("cannot open stderr log: " ++ cfg.name))
  else
    match env.spawn cfg with
    | none => (pm, .error ("failed to start: " ++ cfg.name))
    | some pid =>
      let proc : ManagedProcess :=
        { config := cfg, pid := pid, status := "running", restarts := 0,
          clusterProcs := [] }
      (insertReg pm cfg.name proc, .ok proc)

/-- The `pm.processes[name]`-exists-and-running guard at the top of
`StartProcess` (part_007 lines 98–102). -/
def isRunningIn (pm : Registry) (n : String) : Bool :=
  match lookupReg pm n with
  | some p => p.status == "running"
  | none => false

/-- Models `StartProcess` as invoked on a synthesized cluster worker: the guard
followed by the non-cluster body.  Worker configs carry
`clusterInstances = 0`, so the full `StartProcess` reduces to this
(see `StartProcess_eq_startWorkerOne`). -/
def startWorkerOne (env : OSEnv) (pm : Registry) (cfg : ProcessConfig) :
    Registry × Except String ManagedProcess :=
  if isRunningIn pm cfg.name then
    (pm, .error ("process is already running: " ++ cfg.name))
  else startNonCluster env pm cfg

/-- The worker config synthesized by `startClusterProcess`:
`instanceConfig := *procConfig` with
`Name = fmt.Sprintf("%s-worker-%d", name, i)` and `Cluster.Instances = 0`.
`Nat.repr` is Go's `%d` on a non-negative int. -/
def workerConfig (cfg : ProcessConfig) (i : Nat) : ProcessConfig :=
  { cfg with name := cfg.name ++ "-worker-" ++ Nat.repr i,
             clusterInstances := 0 }

/-- The registry effect of the worker loop of `startClusterProcess`
(part_007 lines 210–225) with the mutex elided, i.e. as if each recursive
`pm.StartProcess(&instanceConfig)` call (line 217) returned: a worker that
fails to start is logged and skipped, a started worker is appended to the
master's list in index order.  Under the lock-aware semantics (`startGo`
below) that recursive call in fact re-locks the held `pm.mutex` and blocks
forever, so this point is never reached in the program; the function is
kept to describe the cluster-shaped registry states that the stop-path and
listing claims presuppose. -/
def startWorkers (env : OSEnv) (cfg : ProcessConfig) :
    List Nat → Registry → Registry × List ManagedProcess
  | [], pm => (pm, [])
  | i :: rest, pm =>
    match startWorkerOne env pm (workerConfig cfg i) with
    | (pm2, .ok proc) =>
      let r := startWorkers env cfg rest pm2
      (r.1, proc :: r.2)
    | (pm2, .error _) => startWorkers env cfg rest pm2

/-- The registry effect of `core.(*ProcessManager).startClusterProcess`
(part_007 lines 195–232) with the mutex elided: the master record is
created with no `PID` (zero value) and no `Restarts`, status `"running"`;
workers `0 … instances-1` are started; the master is stored under the
original name and returned with a nil error.  The source runs this while
`StartProcess` holds `pm.mutex`, so under the lock-aware semantics
(`startGo` below) the worker loop deadlocks at its first recursive call
and the master insertion is never executed. -/
def startClusterProcess (env : OSEnv) (pm : Registry) (cfg : ProcessConfig) :
    Registry × Except String ManagedProcess :=
  let instances := if cfg.clusterInstances = 0 then 1 else cfg.clusterInstances
  let r := startWorkers env cfg (List.range instances) pm
  let master : ManagedProcess :=
    { config := cfg, pid := 0, status := "running", restarts := 0,
      clusterProcs := r.2 }
  (insertReg r.1 cfg.name master, .ok master)

/-- The registry effect of `core.(*ProcessManager).StartProcess`
(part_007 lines 93–192) with the mutex elided: the already-running guard,
then the cluster dispatch (`Cluster.Instances > 1`), then the
single-process path.  For every non-cluster call — external starts and the
monitor's respawns, made without the registry lock — the mutex is simply
taken and released around this body, so this is the program's behaviour
(`startGo_nonCluster`); for a cluster config the program instead deadlocks
before the dispatch target completes (`startGo_cluster_blocked`). -/
def StartProcess (env : OSEnv) (pm : Registry) (cfg : ProcessConfig) :
    Registry × Except String ManagedProcess :=
  if isRunningIn pm cfg.name then
    (pm, .error ("process is already running: " ++ cfg.name))
  else if 1 < cfg.clusterInstances then
    startClusterProcess env pm cfg
  else startNonCluster env pm cfg

/-! ## Lock-aware start path

`StartProcess` begins with `pm.mutex.Lock()` and holds the write lock for
its whole body (`defer pm.mutex.Unlock()`, part_007 lines 94–95).  Go's
`sync.RWMutex` is not reentrant: a goroutine already holding the write
lock that calls `Lock()` again blocks forever.  `startClusterProcess`
runs while the lock is held and its worker loop re-enters
`pm.StartProcess` (line 217), so whether a call returns at all depends on
the lock; the functions below model the call together with the mutex. -/

/-- Result of a call that may block forever on `pm.mutex`. -/
inductive Outcome (α : Type) where
  | done : α → Outcome α
  | blocked : Outcome α
  deriving Repr

mutual
/-- Embeds a call to `core.(*ProcessManager).StartProcess` together with
the registry mutex: `lockHeld` says whether the calling goroutine already
holds `pm.mutex`.  The call's first action is `pm.mutex.Lock()`
(line 94), which never returns if this goroutine already holds the write
lock; otherwise the body runs under the lock — the already-running guard,
the cluster dispatch, whose worker loop re-enters `StartProcess` with the
lock still held, and the single-process path.  The fuel only bounds the
nesting of the cluster dispatch; it is never the deciding factor, because
an inner call blocks at its `Lock()` first. -/
def startGo (env : OSEnv) :
    Nat → Bool → Registry → ProcessConfig →
      Outcome (Registry × Except String ManagedProcess)
  | _, true, _, _ => .blocked
  | 0, false, _, _ => .blocked
  | f + 1, false, pm, cfg =>
    if isRunningIn pm cfg.name then
      .done (pm, .error ("process is already running: " ++ cfg.name))
    else if 1 < cfg.clusterInstances then
      match startWorkersGo env f cfg
          (List.range (if cfg.clusterInstances = 0 then 1
            else cfg.clusterInstances)) pm with
      | .blocked => .blocked
      | .done (pm2, children) =>
        .done (insertReg pm2 cfg.name
          { config := cfg, pid := 0, status := "running", restarts := 0,
            clusterProcs := children },
         .ok { config := cfg, pid := 0, status := "running",
               restarts := 0, clusterProcs := children })
    else .done (startNonCluster env pm cfg)
termination_by f _ _ _ => (f, 0)

/-- The worker loop of `startClusterProcess` under the held mutex: each
recursive `pm.StartProcess(&instanceConfig)` call (line 217) is a
`startGo` call with `lockHeld = true`; if it blocks, the loop — and the
whole cluster start — never completes. -/
def startWorkersGo (env : OSEnv) :
    Nat → ProcessConfig → List Nat → Registry →
      Outcome (Registry × List ManagedProcess)
  | _, _, [], pm => .done (pm, [])
  | f, cfg, i :: rest, pm =>
    match startGo env f true pm (workerConfig cfg i) with
    | .blocked => .blocked
    | .done (pm2, .ok proc) =>
      match startWorkersGo env f cfg rest pm2 with
      | .blocked => .blocked
      | .done (pm3, procs) => .done (pm3, proc :: procs)
    | .done (pm2, .error _) => startWorkersGo env f cfg rest pm2
termination_by f _ l _ => (f, l.length + 1)
end

/-! ## Stop path

`StopProcess` (part_007 lines 235–315) has a synchronous part — the cluster
fan-out, the signal, the status write, and for a cluster master the map
delete — and an asynchronous part: for a non-cluster record, a goroutine
waits for the child to exit and only then removes the record.  The model
returns the registry as it stands when `StopProcess` returns, together with
the list of names whose removal is still pending in such goroutines. -/

/-- The non-cluster tail of `StopProcess` (lines 265–314): the pre-stop hook
result is only logged; a signal failure is returned with the registry
untouched; on success the record's `Status` is set to `"stopped"` and a
cleanup goroutine is spawned that will delete the record after the child's
exit (the pending list). -/
def stopSingle (env : OSEnv) (pm : Registry) (name : String)
    (proc : ManagedProcess) : Registry × List String × Except String Unit :=
  if env.signalOk name then
    (insertReg pm name { proc with status := "stopped" }, [name], .ok ())
  else (pm, [], .error ("signal failed: " ++ name))

/-- The cluster fan-out loop of `StopProcess` (lines 245–251): each worker
is stopped via the recursive `StopProcess` call (`stopFn`); errors are only
logged.  Accumulates the updated registry and the pending removals in index
order. -/
def stopChildren
    (stopFn : Registry → String → Registry × List String × Except String Unit) :
    List ManagedProcess → Registry → Registry × List String
  | [], pm => (pm, [])
  | w :: ws, pm =>
    let r := stopFn pm w.config.name
    let rest := stopChildren stopFn ws r.1
    (rest.1, r.2.1 ++ rest.2)

/-- Embeds `core.(*ProcessManager).StopProcess`, fuel-indexed: the source recurses
through `ClusterProcs` by name, and the fuel bounds that nesting depth (one
level suffices for every registry the engine builds).  For a cluster master
the children are stopped first and the master is deleted from the map
before the function returns; for a plain record the removal is asynchronous. -/
def stopGo (env : OSEnv) :
    Nat → Registry → String → Registry × List String × Except String Unit
  | 0, pm, _ => (pm, [], .error "recursion depth exceeded")
  | fuel + 1, pm, name =>
    match lookupReg pm name with
    | none => (pm, [], .error ("process not found: " ++ name))
    | some proc =>
      if proc.clusterProcs.isEmpty then stopSingle env pm name proc
      else
        let r := stopChildren (stopGo env fuel) proc.clusterProcs pm
        (removeReg r.1 name, r.2, .ok ())

/-- Embeds `StopProcess(name, force)`: the fuel `pm.length + 1` covers any nesting
the engine can build (masters refer to non-cluster workers).  The `force`
flag only selects `SIGKILL` over `SIGTERM`; both are a single `signalOk`
consultation, so it does not appear separately. -/
def StopProcess (env : OSEnv) (pm : Registry) (name : String) :
    Registry × List String × Except String Unit :=
  stopGo env (pm.length + 1) pm name

/-- Running the deferred cleanup goroutines left behind by `StopProcess`:
each removes its record from the map once the child's exit is observed. -/
def applyPending (pm : Registry) (pending : List String) : Registry :=
  pending.foldl removeReg pm

/-! ## Monitor task

`monitorProcess` (part_007 lines 498–545) runs once per spawned child and
wakes when `Cmd.Wait()` returns.  `exitFailure` is `err != nil` from
`Wait()` (non-zero exit status or termination by signal).  The monitor
holds the record it was spawned with, which is the registry's record for
that name until a restart replaces it; the model therefore acts on the
current registry record for the name. -/

/-- One monitor wake-up: sets `Status = "stopped"`, evaluates the restart
policy against `Config.Restart` and `err`, checks `Restarts` against
`MaxRestarts` (`0` = unlimited), and either increments `Restarts` on the
old record and re-enters `StartProcess` with the same config, or deletes
the record from the map.  Returns the registry and whether a respawn
happened (i.e. `StartProcess` succeeded). -/
def monitorOnExit (env : OSEnv) (pm : Registry) (name : String)
    (exitFailure : Bool) : Registry × Bool :=
  match lookupReg pm name with
  | none => (pm, false)
  | some proc =>
    let pm1 := insertReg pm name { proc with status := "stopped" }
    let shouldRestart :=
      proc.config.restart = "always" ∨
        (proc.config.restart = "on-failure" ∧ exitFailure = true)
    if shouldRestart ∧
        (proc.config.maxRestarts = 0 ∨ proc.restarts < proc.config.maxRestarts) then
      let pm2 := insertReg pm1 name
        { proc with status := "stopped", restarts := proc.restarts + 1 }
      match StartProcess env pm2 proc.config with
      | (pm3, .ok _) => (pm3, true)
      | (pm3, .error _) => (pm3, false)
    else
      (removeReg pm1 name, false)

/-- A run of `n` successive child exits (each one a failure, e.g. a child
that always crashes) observed by the monitor tasks for `name`, counting the
respawns that occur. -/
def exitsFrom (env : OSEnv) (name : String) :
    Nat → Registry → Registry × Nat
  | 0, pm => (pm, 0)
  | n + 1, pm =>
    let r := monitorOnExit env pm name true
    let rest := exitsFrom env name n r.1
    (rest.1, (if r.2 then 1 else 0) + rest.2)

/-! ## Log tail

The file system is modelled as a partial map from path to the file's lines
(`none` = the file does not exist / cannot be opened). -/

/-- Embeds `readLastLines` (part_007 lines 728–760): open the file (an absent file
is an error), `n ≤ 0` returns every line, otherwise the last `n` lines
(`lines[len(lines)-n:]`); a file with at most `n` lines is returned whole.
`n` is a Go `int`, hence `Int`. -/
def readLastLines (fs : String → Option (List String)) (filePath : String)
    (n : Int) : Except String (List String) :=
  match fs filePath with
  | none => .error ("open failed: " ++ filePath)
  | some lines =>
    if n ≤ 0 then .ok lines
    else if (lines.length : Int) ≤ n then .ok lines
    else .ok (lines.drop (lines.length - n.toNat))

/-- Embeds `core.(*ProcessManager).GetLogs` (part_007 lines 464–495): unknown name
is an error, a cluster master is refused, the stream selects the configured
log path or the default `<logsPath>/<name>.{out,err}.log`, any other stream
is invalid, and the tail is read with `readLastLines`. -/
def GetLogs (fs : String → Option (List String))
    (logsPath : String) (pm : Registry) (name stream : String) (n : Int) :
    Except String (List String) :=
  match lookupReg pm name with
  | none => .error ("process not found: " ++ name)
  | some proc =>
    if ¬ proc.clusterProcs.isEmpty then
      .error "cannot get logs for cluster master"
    else if stream = "stdout" then
      readLastLines fs
        (if proc.config.logStdout ≠ "" then proc.config.logStdout
         else logsPath ++ "/" ++ proc.config.name ++ ".out.log") n
    else if stream = "stderr" then
      readLastLines fs
        (if proc.config.logStderr ≠ "" then proc.config.logStderr
         else logsPath ++ "/" ++ proc.config.name ++ ".err.log") n
    else .error ("invalid stream: " ++ stream)

/-! ## API process listing -/

/-- Embeds `api.isClusterWorker` (part_013 lines 302–305):
`len(name) > 8 && name[len(name)-8:] == "-worker-"` — the last eight
characters must be exactly the string `"-worker-"`.  Process names match
`[A-Za-z0-9_.-]+`, so Go's byte indexing and character indexing agree. -/
def isClusterWorker (name : String) : Bool :=
  decide (8 < name.length) && (name.drop (name.length - 8) == "-worker-")

/-- Embeds `core.(*ProcessManager).ListProcesses`: a snapshot of the registry's
records (Go map order is arbitrary; the list order is one admissible
order). -/
def ListProcesses (pm : Registry) : List ManagedProcess :=
  pm.map (fun e => e.2)

/-- The `GET /processes` handler `api.(*APIServer).listProcesses`
(part_013 lines 91–103): every record whose name passes `isClusterWorker`
is dropped, the rest are returned. -/
def listProcessesHandler (pm : Registry) : List ManagedProcess :=
  (ListProcesses pm).filter (fun p => ! isClusterWorker p.config.name)

/-! ## Script service (part_003) -/

/-- Embeds the `Script` record of the script service. -/
structure Script where
  name : String
  file : String
  schedule : String
  process : String
  deriving Repr, DecidableEq

/-- The persisted script records, `scriptsDir/<name>.json`, as a map from
script name to record. -/
abbrev ScriptStore := List (String × Script)

/-- Models `ScriptService.Get`: read `<name>.json` from the store. -/
def lookupScript (st : ScriptStore) (n : String) : Option Script :=
  (st.find? (fun e => e.1 == n)).map (fun e => e.2)

/-- Models `saveScript`: write `<name>.json`. -/
def insertScript (st : ScriptStore) (n : String) (s : Script) : ScriptStore :=
  (st.filter (fun e => e.1 != n)) ++ [(n, s)]

/-- Oracle for the script service's external calls. -/
structure ScriptEnv where
  /-- Whether `os.Stat` on the script file succeeds. -/
  fileExists : String → Bool
  /-- Whether `processService.Get` knows the associated process. -/
  processKnown : String → Bool
  /-- Whether `cronScheduler.AddFunc` accepts the cron expression. -/
  cronAccepts : String → Bool
  /-- Whether `os.WriteFile` of the script's json config succeeds. -/
  saveOk : String → Bool

/-- Embeds `ScriptService.Add` (part_003 lines 75–115), in source order: duplicate
name check, script-file existence, associated-process existence, then
`saveScript` persists the record, and only afterwards `scheduleScript`
registers a non-empty cron expression — whose failure is returned without
undoing the save. -/
def ScriptService.Add (env : ScriptEnv) (st : ScriptStore)
    (name file schedule process : String) : ScriptStore × Except String Unit :=
  if (lookupScript st name).isSome then
    (st, .error ("script already exists: " ++ name))
  else if ¬ env.fileExists file then
    (st, .error ("script file does not exist: " ++ file))
  else if process ≠ "" ∧ ¬ env.processKnown process then
    (st, .error ("process does not exist: " ++ process))
  else if ¬ env.saveOk name then
    (st, .error ("failed to write script config: " ++ name))
  else
    let script : Script :=
      { name := name, file := file, schedule := schedule, process := process }
    let st1 := insertScript st name script
    if schedule ≠ "" ∧ ¬ env.cronAccepts schedule then
      (st1, .error ("failed to schedule script: " ++ name))
    else (st1, .ok ())

/-! ## Specification-side predicates

These state the claims' conditions in the spec's words; the theorems relate
them to the embedded code. -/

/-- The spec's restart-policy gate for one observed exit: `always` restarts;
`on-failure` restarts exactly when the exit was a failure. -/
def policyAllows (c : ProcessConfig) (exitFailure : Bool) : Prop :=
  c.restart = "always" ∨ (c.restart = "on-failure" ∧ exitFailure = true)

/-- The spec's restart-cap gate: `maxRestarts = 0` is unlimited, otherwise
the counter must still be below the cap. -/
def capAllows (p : ManagedProcess) : Prop :=
  p.config.maxRestarts = 0 ∨ p.restarts < p.config.maxRestarts

/-- The oracle lets every external step of a (non-cluster) start of `c`
succeed. -/
def envSucceedsFor (env : OSEnv) (c : ProcessConfig) : Prop :=
  env.runScriptOk c.preStart = true ∧ env.userOk c.user c.group = true ∧
    env.stdoutOpenOk c = true ∧ env.stderrOpenOk c = true ∧
    (env.spawn c).isSome = true

/-- The record a successful worker start inserts (pid from the spawn
oracle). -/
def workerRec (env : OSEnv) (cfg : ProcessConfig) (i : Nat) : ManagedProcess :=
  { config := workerConfig cfg i,
    pid := (env.spawn (workerConfig cfg i)).getD 0,
    status := "running", restarts := 0, clusterProcs := [] }

/-- Relation between a registry and the result of stopping some of its
members: every name is either untouched or had its record's status set to
`"stopped"`. -/
def stoppedFrame (pm pm' : Registry) : Prop :=
  ∀ n, lookupReg pm' n = lookupReg pm n ∨
    ∃ q, lookupReg pm n = some q ∧
      lookupReg pm' n = some { q with status := "stopped" }

/-- A file system with a single file. -/
def fsSingle (path : String) (l : List String) :
    String → Option (List String) :=
  fun p => if p = path then some l else none

/-! ## Concrete fixtures -/

/-- An oracle where every external call succeeds. -/
def envAllOk : OSEnv :=
  { runScriptOk := fun _ => true, userOk := fun _ _ => true,
    stdoutOpenOk := fun _ => true, stderrOpenOk := fun _ => true,
    spawn := fun _ => some 42, signalOk := fun _ => true }

/-- An oracle where every spawn fails (everything else succeeds). -/
def envNoSpawn : OSEnv := { envAllOk with spawn := fun _ => none }

/-- An oracle where every hook script fails. -/
def envPreStartFail : OSEnv := { envAllOk with runScriptOk := fun _ => false }

/-- A single-instance descriptor with `restart = always` and no cap. -/
def cfg0 : ProcessConfig :=
  { name := "svc", command := "/bin/app", args := [], workingDir := "",
    environment := [], restart := "always", maxRestarts := 0,
    restartDelay := 0, clusterInstances := 0, clusterMode := "",
    logStdout := "", logStderr := "", user := "", group := "",
    preStart := "", postStart := "", preStop := "", postStop := "",
    autoStart := false }

/-- Variant with `restart = always` and `maxRestarts = 1`. -/
def cfgM : ProcessConfig := { cfg0 with maxRestarts := 1 }

/-- A descriptor carrying a pre-start hook. -/
def cfgPre : ProcessConfig := { cfg0 with preStart := "setup.sh" }

/-- Variant with `restart = on-failure`. -/
def cfgOF : ProcessConfig := { cfg0 with restart := "on-failure" }

/-- A two-instance cluster descriptor named `web`. -/
def cfgWeb : ProcessConfig :=
  { cfg0 with name := "web", clusterInstances := 2 }

/-- The registry after starting `svc` into an empty registry. -/
def pmSvc : Registry := (StartProcess envAllOk [] cfg0).1

/-- The registry after starting the `web` cluster into an empty registry:
it holds `web-worker-0`, `web-worker-1` and the master `web`. -/
def pmWeb : Registry := (StartProcess envAllOk [] cfgWeb).1

/-- The registry after starting the on-failure descriptor `svc`. -/
def pmOF : Registry := (StartProcess envAllOk [] cfgOF).1

/-- The record stored for `svc` in `pmOF`. -/
def procOF : ManagedProcess :=
  { config := cfgOF, pid := 42, status := "running", restarts := 0,
    clusterProcs := [] }

/-- The record stored for `svc` in `pmSvc`. -/
def procSvc : ManagedProcess :=
  { config := cfg0, pid := 42, status := "running", restarts := 0,
    clusterProcs := [] }

/-- The master record stored for `web` in `pmWeb`. -/
def masterWeb : ManagedProcess :=
  { config := cfgWeb, pid := 0, status := "running", restarts := 0,
    clusterProcs := [workerRec envAllOk cfgWeb 0, workerRec envAllOk cfgWeb 1] }

/-- A script-service oracle whose cron engine rejects every expression. -/
def envScrBadCron : ScriptEnv :=
  { fileExists := fun _ => true, processKnown := fun _ => true,
    cronAccepts := fun _ => false, saveOk := fun _ => true }

/-! ## General lemmas -/

/-- On a config with `clusterInstances ≤ 1` (in particular on every
synthesized worker config, which carries `0`), the full `StartProcess`
coincides with `startWorkerOne`: the recursion in the source bottoms out. -/
theorem StartProcess_eq_startWorkerOne (env : OSEnv) (pm : Registry)
    (cfg : ProcessConfig) (h : cfg.clusterInstances ≤ 1) :
    StartProcess env pm cfg = startWorkerOne env pm cfg := by
  unfold StartProcess startWorkerOne
  have h2 : ¬ 1 < cfg.clusterInstances := by omega
  simp [h2]

theorem find?_filter_of_imp {α : Type} (p q : α → Bool) (l : List α)
    (h : ∀ x, p x = true → q x = true) :
    (l.filter q).find? p = l.find? p := by
  induction l with
  | nil => rfl
  | cons e t ih =>
    by_cases hq : q e = true
    · by_cases hp : p e = true
      · simp [List.filter_cons, hq, List.find?_cons, hp]
      · simp [List.filter_cons, hq, List.find?_cons, hp, ih]
    · have hp : ¬ p e = true := fun hpe => hq (h e hpe)
      simp [List.filter_cons, hq, List.find?_cons, hp, ih]

theorem lookupReg_insert (pm : Registry) (n m : String) (p : ManagedProcess) :
    lookupReg (insertReg pm n p) m = if m = n then some p else lookupReg pm m := by
  unfold lookupReg insertReg
  rw [List.find?_append]
  by_cases h : m = n
  · subst h
    have h1 : (pm.filter (fun e => e.1 != m)).find? (fun e => e.1 == m) = none := by
      rw [List.find?_eq_none]
      intro x hx
      have hx2 := List.of_mem_filter hx
      simp only [bne_iff_ne, ne_eq] at hx2
      simp [hx2]
    rw [h1]
    simp
  · have h1 : (pm.filter (fun e => e.1 != n)).find? (fun e => e.1 == m) =
        pm.find? (fun e => e.1 == m) := by
      apply find?_filter_of_imp
      intro x hx
      simp only [beq_iff_eq] at hx
      simp only [bne_iff_ne, ne_eq, decide_eq_true_eq]
      exact fun hc => h (hx ▸ hc ▸ rfl)
    have h2 : List.find? (fun e => e.1 == m) [(n, p)] = none := by
      have hnm : (n == m) = false := by
        simp only [beq_eq_false_iff_ne, ne_eq]
        exact fun hc => h hc.symm
      simp [List.find?_cons, hnm]
    rw [h1, h2, Option.or_none, if_neg h]

theorem lookupReg_remove (pm : Registry) (n m : String) :
    lookupReg (removeReg pm n) m = if m = n then none else lookupReg pm m := by
  unfold lookupReg removeReg
  by_cases h : m = n
  · subst h
    have h1 : (pm.filter (fun e => e.1 != m)).find? (fun e => e.1 == m) = none := by
      rw [List.find?_eq_none]
      intro x hx
      have hx2 := List.of_mem_filter hx
      simp only [bne_iff_ne, ne_eq] at hx2
      simp [hx2]
    rw [h1]
    simp
  · have h1 : (pm.filter (fun e => e.1 != n)).find? (fun e => e.1 == m) =
        pm.find? (fun e => e.1 == m) := by
      apply find?_filter_of_imp
      intro x hx
      simp only [beq_iff_eq] at hx
      simp only [bne_iff_ne, ne_eq, decide_eq_true_eq]
      exact fun hc => h (hx ▸ hc ▸ rfl)
    rw [h1, if_neg h]

/-- A successful worker start is exactly one insertion of the spawned
record. -/
theorem startWorkerOne_success (env : OSEnv) (pm : Registry)
    (c : ProcessConfig) (hnr : isRunningIn pm c.name = false)
    (henv : envSucceedsFor env c) :
    startWorkerOne env pm c =
      (insertReg pm c.name
        { config := c, pid := (env.spawn c).getD 0, status := "running",
          restarts := 0, clusterProcs := [] },
       .ok { config := c, pid := (env.spawn c).getD 0, status := "running",
             restarts := 0, clusterProcs := [] }) := by
  obtain ⟨h1, h2, h3, h4, h5⟩ := henv
  obtain ⟨pid, hp⟩ := Option.isSome_iff_exists.mp h5
  unfold startWorkerOne startNonCluster
  rw [hnr]
  simp [h1, h2, h3, h4, hp]

theorem stoppedFrame_insert (pm : Registry) (n : String)
    (q : ManagedProcess) (h : lookupReg pm n = some q) :
    stoppedFrame pm (insertReg pm n { q with status := "stopped" }) := by
  intro m
  by_cases hm : m = n
  · subst hm
    exact Or.inr ⟨q, h, by rw [lookupReg_insert, if_pos rfl]⟩
  · exact Or.inl (by rw [lookupReg_insert, if_neg hm])

theorem stoppedFrame_trans {a b c : Registry}
    (hab : stoppedFrame a b) (hbc : stoppedFrame b c) : stoppedFrame a c := by
  intro n
  rcases hbc n with hcb | ⟨q, hbq, hcq⟩
  · rcases hab n with hba | ⟨q, haq, hbq⟩
    · exact Or.inl (hcb.trans hba)
    · exact Or.inr ⟨q, haq, hcb.trans hbq⟩
  · rcases hab n with hba | ⟨q0, haq0, hbq0⟩
    · exact Or.inr ⟨q, hba ▸ hbq, hcq⟩
    · have hq : q = { q0 with status := "stopped" } := by
        rw [hbq0] at hbq
        exact (Option.some.injEq _ _ ▸ hbq.symm :)
      subst hq
      exact Or.inr ⟨q0, haq0, hcq⟩

/-- The fan-out loop of a cluster stop: all pending removals are the child
names in index order, every touched record only had its status set to
`"stopped"`, and each child's record is still present (now `"stopped"`)
when the loop finishes. -/
theorem stopChildren_spec (env : OSEnv) (f : Nat)
    (hsig : ∀ n, env.signalOk n = true) :
    ∀ (ws : List ManagedProcess) (pm : Registry),
      (∀ w ∈ ws, ∃ r, lookupReg pm w.config.name = some r ∧
        r.clusterProcs = []) →
      (stopChildren (stopGo env (f + 1)) ws pm).2 =
          ws.map (fun w => w.config.name) ∧
      stoppedFrame pm (stopChildren (stopGo env (f + 1)) ws pm).1 ∧
      (∀ w ∈ ws, ∃ r,
        lookupReg (stopChildren (stopGo env (f + 1)) ws pm).1 w.config.name =
          some r ∧ r.status = "stopped") := by
  intro ws
  induction ws with
  | nil =>
    intro pm _
    exact ⟨rfl, fun n => Or.inl rfl, by simp⟩
  | cons w ws ih =>
    intro pm hch
    obtain ⟨r, hr, hrc⟩ := hch w (List.mem_cons_self w ws)
    have hstep : stopGo env (f + 1) pm w.config.name =
        (insertReg pm w.config.name { r with status := "stopped" },
         [w.config.name], .ok ()) := by
      unfold stopGo stopSingle
      rw [hr]
      simp [hrc, hsig w.config.name]
    have hch2 : ∀ w' ∈ ws, ∃ r',
        lookupReg (insertReg pm w.config.name { r with status := "stopped" })
          w'.config.name = some r' ∧ r'.clusterProcs = [] := by
      intro w' hw'
      obtain ⟨r', hr', hrc'⟩ := hch w' (List.mem_cons_of_mem _ hw')
      by_cases he : w'.config.name = w.config.name
      · refine ⟨{ r with status := "stopped" }, ?_, hrc⟩
        rw [lookupReg_insert, if_pos he]
      · exact ⟨r', by rw [lookupReg_insert, if_neg he]; exact hr', hrc'⟩
    obtain ⟨ihp, ihf, ihs⟩ :=
      ih (insertReg pm w.config.name { r with status := "stopped" }) hch2
    have hunf : stopChildren (stopGo env (f + 1)) (w :: ws) pm =
        ((stopChildren (stopGo env (f + 1)) ws
            (insertReg pm w.config.name { r with status := "stopped" })).1,
         [w.config.name] ++
          (stopChildren (stopGo env (f + 1)) ws
            (insertReg pm w.config.name { r with status := "stopped" })).2) := by
      show (let rr := stopGo env (f + 1) pm w.config.name
            let rest := stopChildren (stopGo env (f + 1)) ws rr.1
            (rest.1, rr.2.1 ++ rest.2)) = _
      rw [hstep]
    refine ⟨?_, ?_, ?_⟩
    · rw [hunf]
      simp [ihp]
    · rw [hunf]
      exact stoppedFrame_trans (stoppedFrame_insert pm w.config.name r hr) ihf
    · intro w' hw'
      rw [hunf]
      rcases List.mem_cons.mp hw' with he | hw'
      · subst he
        rcases ihf w'.config.name with hfr | ⟨q, hq1, hq2⟩
        · refine ⟨{ r with status := "stopped" }, ?_, rfl⟩
          rw [hfr, lookupReg_insert, if_pos rfl]
        · rw [lookupReg_insert, if_pos rfl] at hq1
          have hqe : q = { r with status := "stopped" } :=
            Option.some.inj hq1.symm
          exact ⟨{ q with status := "stopped" }, hq2, rfl⟩
      · exact ihs w' hw'

theorem lookupReg_applyPending_none :
    ∀ (l : List String) (pm : Registry) (n : String),
      lookupReg pm n = none → lookupReg (applyPending pm l) n = none := by
  intro l
  induction l with
  | nil => intro pm n h; exact h
  | cons m rest ih =>
    intro pm n h
    unfold applyPending
    simp only [List.foldl_cons]
    apply ih
    rw [lookupReg_remove]
    by_cases hm : n = m
    · rw [if_pos hm]
    · rw [if_neg hm]; exact h

theorem lookupReg_applyPending_mem :
    ∀ (l : List String) (pm : Registry) (n : String),
      n ∈ l → lookupReg (applyPending pm l) n = none := by
  intro l
  induction l with
  | nil => intro pm n h; cases h
  | cons m rest ih =>
    intro pm n h
    rcases List.mem_cons.mp h with he | hmem
    · subst he
      by_cases hm : n ∈ rest
      · exact ih _ _ hm
      · unfold applyPending
        simp only [List.foldl_cons]
        apply lookupReg_applyPending_none
        rw [lookupReg_remove, if_pos rfl]
    · exact ih _ _ hmem

/-- A `StartProcess` call made while the calling goroutine already holds
`pm.mutex` blocks forever at its own `pm.mutex.Lock()`. -/
theorem startGo_locked (env : OSEnv) (f : Nat) (pm : Registry)
    (cfg : ProcessConfig) : startGo env f true pm cfg = .blocked := by
  cases f <;> simp [startGo]

/-- On a non-cluster config the lock-aware call completes: the mutex is
taken and released around the single-process body, and the result is the
registry-effect model `StartProcess`. -/
theorem startGo_nonCluster (env : OSEnv) (f : Nat) (pm : Registry)
    (cfg : ProcessConfig) (hcl : cfg.clusterInstances ≤ 1) :
    startGo env (f + 1) false pm cfg = .done (StartProcess env pm cfg) := by
  have h2 : ¬ 1 < cfg.clusterInstances := by omega
  by_cases hr : isRunningIn pm cfg.name
  · simp [startGo, StartProcess, hr]
  · simp [startGo, StartProcess, hr, h2]

/-- A cluster start (`instances ≥ 2`, name not already running) blocks:
the worker loop's first recursive `pm.StartProcess` call re-locks the
held, non-reentrant `pm.mutex`. -/
theorem startGo_cluster_blocked (env : OSEnv) (f : Nat) (pm : Registry)
    (cfg : ProcessConfig) (hk : 2 ≤ cfg.clusterInstances)
    (hnr : isRunningIn pm cfg.name = false) :
    startGo env (f + 1) false pm cfg = .blocked := by
  have h1 : 1 < cfg.clusterInstances := by omega
  obtain ⟨k, hk2⟩ : ∃ k, cfg.clusterInstances = k + 1 :=
    ⟨cfg.clusterInstances - 1, by omega⟩
  have hrange : List.range (if cfg.clusterInstances = 0 then 1
      else cfg.clusterInstances) = 0 :: (List.range k).map Nat.succ := by
    rw [if_neg (by omega), hk2, List.range_succ_eq_map]
  have hw : startWorkersGo env f cfg
      (0 :: (List.range k).map Nat.succ) pm = .blocked := by
    simp [startWorkersGo, startGo_locked]
  simp [startGo, hnr, h1, hrange, hw]

/-- One unfolding step of `stopGo`. -/
theorem stopGo_succ (env : OSEnv) (f : Nat) (pm : Registry) (name : String) :
    stopGo env (f + 1) pm name =
      match lookupReg pm name with
      | none => (pm, [], .error ("process not found: " ++ name))
      | some proc =>
        if proc.clusterProcs.isEmpty then stopSingle env pm name proc
        else
          let r := stopChildren (stopGo env f) proc.clusterProcs pm
          (removeReg r.1 name, r.2, .ok ()) := rfl

/-- Tail behaviour of `readLastLines` on an existing file. -/
theorem readLastLines_some (fs : String → Option (List String))
    (path : String) (L : List String) (hp : fs path = some L) (n : Int) :
    (n ≤ 0 → readLastLines fs path n = .ok L) ∧
    (0 < n → ∃ T, readLastLines fs path n = .ok T ∧ T.IsSuffix L ∧
      T.length = min n.toNat L.length) := by
  have he : readLastLines fs path n =
      if n ≤ 0 then Except.ok L
      else if (L.length : Int) ≤ n then Except.ok L
      else Except.ok (L.drop (L.length - n.toNat)) := by
    unfold readLastLines
    rw [hp]
  constructor
  · intro hn
    rw [he, if_pos hn]
  · intro hn
    rw [he, if_neg (by omega)]
    by_cases hl : (L.length : Int) ≤ n
    · rw [if_pos hl]
      refine ⟨L, rfl, List.suffix_refl L, ?_⟩
      have h2 : L.length ≤ n.toNat := by omega
      omega
    · rw [if_neg hl]
      refine ⟨L.drop (L.length - n.toNat), rfl, List.drop_suffix _ _, ?_⟩
      rw [List.length_drop]
      omega

/-- A missing file is an error for `readLastLines`. -/
theorem readLastLines_none (fs : String → Option (List String))
    (path : String) (hp : fs path = none) (n : Int) :
    ∃ e, readLastLines fs path n = .error e := by
  unfold readLastLines
  rw [hp]
  exact ⟨_, rfl⟩

/-- Evaluating `GetLogs` on stream `stdout` of a known, non-cluster record with no
configured log path reads the default stdout log file. -/
theorem GetLogs_stdout_eq (fs : String → Option (List String))
    (logsPath : String) (pm : Registry) (name : String)
    (proc : ManagedProcess) (n : Int)
    (hlk : lookupReg pm name = some proc) (hnc : proc.clusterProcs = [])
    (hname : proc.config.name = name)
    (hout : proc.config.logStdout = "") :
    GetLogs fs logsPath pm name "stdout" n =
      readLastLines fs (logsPath ++ "/" ++ name ++ ".out.log") n := by
  unfold GetLogs
  rw [hlk]
  simp only [hnc, List.isEmpty_nil, not_true_eq_false, if_false,
    if_pos rfl, hout, hname]
  simp

/-- Evaluating `GetLogs` on stream `stderr`, same situation. -/
theorem GetLogs_stderr_eq (fs : String → Option (List String))
    (logsPath : String) (pm : Registry) (name : String)
    (proc : ManagedProcess) (n : Int)
    (hlk : lookupReg pm name = some proc) (hnc : proc.clusterProcs = [])
    (hname : proc.config.name = name)
    (herr : proc.config.logStderr = "") :
    GetLogs fs logsPath pm name "stderr" n =
      readLastLines fs (logsPath ++ "/" ++ name ++ ".err.log") n := by
  unfold GetLogs
  rw [hlk]
  simp only [hnc, List.isEmpty_nil, not_true_eq_false, if_false, herr,
    hname]
  simp

/-- Evaluating `GetLogs` on any other stream is an error. -/
theorem GetLogs_bad_stream (fs : String → Option (List String))
    (logsPath : String) (pm : Registry) (name s : String)
    (proc : ManagedProcess) (n : Int)
    (hlk : lookupReg pm name = some proc) (hnc : proc.clusterProcs = [])
    (h1 : s ≠ "stdout") (h2 : s ≠ "stderr") :
    ∃ e, GetLogs fs logsPath pm name s n = .error e := by
  unfold GetLogs
  rw [hlk]
  simp only [hnc, List.isEmpty_nil, not_true_eq_false, if_false,
    if_neg h1, if_neg h2]
  exact ⟨_, rfl⟩

/-- Script-store analogue of `lookupReg_insert`. -/
theorem lookupScript_insert (st : ScriptStore) (n m : String) (sc : Script) :
    lookupScript (insertScript st n sc) m =
      if m = n then some sc else lookupScript st m := by
  unfold lookupScript insertScript
  rw [List.find?_append]
  by_cases h : m = n
  · subst h
    have h1 : (st.filter (fun e => e.1 != m)).find? (fun e => e.1 == m) =
        none := by
      rw [List.find?_eq_none]
      intro x hx
      have hx2 := List.of_mem_filter hx
      simp only [bne_iff_ne, ne_eq] at hx2
      simp [hx2]
    rw [h1]
    simp
  · have h1 : (st.filter (fun e => e.1 != n)).find? (fun e => e.1 == m) =
        st.find? (fun e => e.1 == m) := by
      apply find?_filter_of_imp
      intro x hx
      simp only [beq_iff_eq] at hx
      simp only [bne_iff_ne, ne_eq, decide_eq_true_eq]
      exact fun hc => h (hx ▸ hc ▸ rfl)
    have h2 : List.find? (fun e => e.1 == m) [(n, sc)] = none := by
      have hnm : (n == m) = false := by
        simp only [beq_eq_false_iff_ne, ne_eq]
        exact fun hc => h hc.symm
      simp [List.find?_cons, hnm]
    rw [h1, h2, Option.or_none, if_neg h]

/-! ## Claim theorems -/

/-- C1: the claim states that once `stop(name, force)` has succeeded, the
monitor task observing the child's exit performs no restart evaluation and
the child is never respawned, because a `stopping` status set by stop makes
the exit terminal.  The code refutes it: `StopProcess` sets the status to
`"stopped"` (no `stopping` status exists) and `monitorProcess` never
consults the status, so for `restart = always` (here `svc`, already
stopped successfully) the monitor's restart evaluation runs and respawns
the child — the registry again holds a `"running"` record for `svc`. -/
theorem c1_monitor_respawns_after_stop :
    (StopProcess envAllOk pmSvc "svc").2.2 = .ok () ∧
    ((lookupReg (StopProcess envAllOk pmSvc "svc").1 "svc").map
      (fun p => p.status)) = some "stopped" ∧
    (monitorOnExit envAllOk (StopProcess envAllOk pmSvc "svc").1 "svc"
      true).2 = true ∧
    ((lookupReg
        (monitorOnExit envAllOk (StopProcess envAllOk pmSvc "svc").1 "svc"
          true).1 "svc").map (fun p => p.status)) = some "running" := by
  decide

/-- C2: the claim states that with `maxRestarts = M > 0` the child is
spawned at most `M + 1` times across one start and any number of exits.
The code refutes it: each respawn goes through `StartProcess`, which
builds a brand-new record whose `Restarts` field is the Go zero value, so
the counter consulted at every restart decision is `0` and never reaches
the cap.  With `M = 1`, three exits yield three respawns — four spawns,
exceeding `M + 1 = 2` — and the surviving record still shows
`restarts = 0`. -/
theorem c2_restart_cap_never_binds :
    (StartProcess envAllOk [] cfgM).2 =
      .ok { config := cfgM, pid := 42, status := "running", restarts := 0,
            clusterProcs := [] } ∧
    (exitsFrom envAllOk "svc" 3 (StartProcess envAllOk [] cfgM).1).2 = 3 ∧
    cfgM.maxRestarts + 1 < 1 + 3 ∧
    ((lookupReg (exitsFrom envAllOk "svc" 3
        (StartProcess envAllOk [] cfgM).1).1 "svc").map
      (fun p => p.restarts)) = some 0 := by
  decide

/-- C4: every failing `start` — pre-start hook failure, user/group lookup
failure, log-file open failure, or spawn failure — returns an error and
leaves the registry exactly as it was (no record inserted or modified). -/
theorem c4_start_error_leaves_registry_unchanged (env : OSEnv)
    (pm : Registry) (cfg : ProcessConfig) (e : String)
    (h : (StartProcess env pm cfg).2 = .error e) :
    (StartProcess env pm cfg).1 = pm := by
  unfold StartProcess at h ⊢
  by_cases hr : isRunningIn pm cfg.name
  · rw [if_pos hr]
  · rw [if_neg hr] at h ⊢
    by_cases hc : 1 < cfg.clusterInstances
    · rw [if_pos hc] at h
      unfold startClusterProcess at h
      simp at h
    · rw [if_neg hc] at h ⊢
      unfold startNonCluster at h ⊢
      split_ifs at h ⊢ <;> try rfl
      cases hs : env.spawn cfg with
      | none => rfl
      | some pid =>
        rw [hs] at h
        simp at h

/-- C4 witness: a concrete failing pre-start hook: the call errors and the
empty registry stays empty. -/
theorem c4_start_error_leaves_registry_unchanged_witness :
    (StartProcess envPreStartFail [] cfgPre).2 =
      .error "pre-start script failed: svc" ∧
    (StartProcess envPreStartFail [] cfgPre).1 = [] :=
  ⟨by decide,
   c4_start_error_leaves_registry_unchanged envPreStartFail [] cfgPre
     "pre-start script failed: svc" (by decide)⟩

/-- C6 counterexample: the claim states the parent record is removed only
after the last child record has been removed, with no observable moment
where the parent entry is gone while a child record remains.  The code
refutes it: stopping the `web` cluster returns successfully having deleted
the parent from the map synchronously, while both `web-worker-N` records
are still present (status `"stopped"`), their removal pending in the
asynchronous wait goroutines. -/
theorem c6_parent_removed_while_children_remain :
    (StopProcess envAllOk pmWeb "web").2.2 = .ok () ∧
    lookupReg (StopProcess envAllOk pmWeb "web").1 "web" = none ∧
    ((lookupReg (StopProcess envAllOk pmWeb "web").1 "web-worker-0").map
      (fun p => p.status)) = some "stopped" ∧
    ((lookupReg (StopProcess envAllOk pmWeb "web").1 "web-worker-1").map
      (fun p => p.status)) = some "stopped" := by
  decide

/-- C7: the claim states `GET /processes` excludes exactly the records
whose name ends in `-worker-N` (a literal `-worker-` followed by the
numeric index).  The code refutes it: `isClusterWorker` compares the last
eight characters with `"-worker-"`, which is false for every real worker
name (they end in a digit), so the listing of the started `web` cluster
still contains `web-worker-0` and `web-worker-1`; conversely a name that
merely ends in `-worker-` (no index) would be excluded. -/
theorem c7_worker_filter_misclassifies :
    isClusterWorker "web-worker-0" = false ∧
    isClusterWorker "odd-worker-" = true ∧
    (listProcessesHandler pmWeb).map (fun p => p.config.name) =
      ["web-worker-0", "web-worker-1", "web"] := by
  decide

/-- C9 counterexample: the claim states that a non-empty cron expression
rejected by the cron engine makes `addScript` fail with no stored record
left behind.  The code refutes the second half: `Add` saves the script
file before calling `scheduleScript`, so the rejected call returns an
error while the record for `backup` is already persisted. -/
theorem c9_rejected_cron_still_persists :
    (ScriptService.Add envScrBadCron [] "backup" "b.sh" "@bad" "").2 =
      .error ("failed to schedule script: " ++ "backup") ∧
    lookupScript
      (ScriptService.Add envScrBadCron [] "backup" "b.sh" "@bad" "").1
      "backup" =
      some { name := "backup", file := "b.sh", schedule := "@bad",
             process := "" } := by
  decide

/-- C3: when a monitored child exits, the engine respawns it if and only
if the restart policy allows it (`never` never respawns; `on-failure`
respawns exactly on a failure exit; `always` always respawns), subject to
the restart cap; with `never`, and with `on-failure` on a zero exit, the
exit is terminal: the record's status is set to `"stopped"` and the record
is then removed, its restart counter untouched. -/
theorem c3_monitor_respawn_iff (env : OSEnv) (pm : Registry) (name : String)
    (proc : ManagedProcess) (ef : Bool)
    (hlk : lookupReg pm name = some proc)
    (hname : proc.config.name = name)
    (hcl : proc.config.clusterInstances ≤ 1)
    (henv : envSucceedsFor env proc.config) :
    ((monitorOnExit env pm name ef).2 = true ↔
      (policyAllows proc.config ef ∧ capAllows proc)) ∧
    (proc.config.restart = "never" →
      monitorOnExit env pm name ef =
        (removeReg (insertReg pm name { proc with status := "stopped" })
          name, false)) ∧
    (proc.config.restart = "on-failure" → ef = false →
      monitorOnExit env pm name ef =
        (removeReg (insertReg pm name { proc with status := "stopped" })
          name, false)) := by
  have heval : ¬ (policyAllows proc.config ef ∧ capAllows proc) →
      monitorOnExit env pm name ef =
        (removeReg (insertReg pm name { proc with status := "stopped" })
          name, false) := by
    intro hd
    unfold policyAllows capAllows at hd
    simp only [monitorOnExit, hlk]
    rw [if_neg hd]
  by_cases hd : policyAllows proc.config ef ∧ capAllows proc
  · -- the decision fires and the start path succeeds, so a respawn happens
    have hlk2 : lookupReg
        (insertReg (insertReg pm name { proc with status := "stopped" }) name
          { proc with status := "stopped", restarts := proc.restarts + 1 })
        proc.config.name =
        some
          { proc with status := "stopped", restarts := proc.restarts + 1 } := by
      rw [hname, lookupReg_insert, if_pos rfl]
    have hnr2 : isRunningIn
        (insertReg (insertReg pm name { proc with status := "stopped" }) name
          { proc with status := "stopped", restarts := proc.restarts + 1 })
        proc.config.name = false := by
      unfold isRunningIn
      rw [hlk2]
      rfl
    have hstart := startWorkerOne_success env
      (insertReg (insertReg pm name { proc with status := "stopped" }) name
        { proc with status := "stopped", restarts := proc.restarts + 1 })
      proc.config hnr2 henv
    have hfull := StartProcess_eq_startWorkerOne env
      (insertReg (insertReg pm name { proc with status := "stopped" }) name
        { proc with status := "stopped", restarts := proc.restarts + 1 })
      proc.config hcl
    have hmon : monitorOnExit env pm name ef =
        (insertReg
          (insertReg (insertReg pm name { proc with status := "stopped" })
            name
            { proc with status := "stopped", restarts := proc.restarts + 1 })
          proc.config.name
          { config := proc.config, pid := (env.spawn proc.config).getD 0,
            status := "running", restarts := 0, clusterProcs := [] },
         true) := by
      have hd' := hd
      unfold policyAllows capAllows at hd'
      simp only [monitorOnExit, hlk]
      rw [if_pos hd', hfull, hstart]
    refine ⟨?_, ?_, ?_⟩
    · rw [hmon]
      simp [hd]
    · intro hr
      exfalso
      rcases hd.1 with h1 | ⟨h2, _⟩
      · rw [hr] at h1
        exact absurd h1 (by decide)
      · rw [hr] at h2
        exact absurd h2 (by decide)
    · intro hr hef
      exfalso
      rcases hd.1 with h1 | ⟨_, h3⟩
      · rw [hr] at h1
        exact absurd h1 (by decide)
      · rw [hef] at h3
        exact absurd h3 (by decide)
  · refine ⟨?_, fun _ => heval hd, fun _ _ => heval hd⟩
    rw [heval hd]
    simpa using hd

/-- C3 witness: the on-failure record `svc` in `pmOF` after a failure
exit: the full characterization instantiated concretely. -/
theorem c3_monitor_respawn_iff_witness :
    ((monitorOnExit envAllOk pmOF "svc" true).2 = true ↔
      (policyAllows procOF.config true ∧ capAllows procOF)) ∧
    (procOF.config.restart = "never" →
      monitorOnExit envAllOk pmOF "svc" true =
        (removeReg (insertReg pmOF "svc"
          { procOF with status := "stopped" }) "svc", false)) ∧
    (procOF.config.restart = "on-failure" → true = false →
      monitorOnExit envAllOk pmOF "svc" true =
        (removeReg (insertReg pmOF "svc"
          { procOF with status := "stopped" }) "svc", false)) :=
  c3_monitor_respawn_iff envAllOk pmOF "svc" procOF true (by decide)
    (by decide) (by decide) ⟨rfl, rfl, rfl, rfl, rfl⟩

/-- C6 (amended): stop on a cluster parent fans out to the children in
index order, but the parent record is removed from the registry
synchronously, before any child record is removed: when `StopProcess`
returns, the parent entry is gone while every child record is still
present with status `"stopped"`, its removal pending in an asynchronous
wait goroutine (one per child, in index order); the child records
disappear only when those deferred cleanups run. -/
theorem c6_cluster_stop_removes_parent_synchronously (env : OSEnv)
    (pm : Registry) (name : String) (master : ManagedProcess)
    (hlk : lookupReg pm name = some master)
    (hne : master.clusterProcs ≠ [])
    (hch : ∀ w ∈ master.clusterProcs, ∃ r,
      lookupReg pm w.config.name = some r ∧ r.clusterProcs = [])
    (hsig : ∀ n, env.signalOk n = true) :
    (StopProcess env pm name).2.2 = .ok () ∧
    lookupReg (StopProcess env pm name).1 name = none ∧
    (∀ w ∈ master.clusterProcs, ∃ r,
      lookupReg (StopProcess env pm name).1 w.config.name = some r ∧
      r.status = "stopped") ∧
    (StopProcess env pm name).2.1 =
      master.clusterProcs.map (fun w => w.config.name) ∧
    (∀ w ∈ master.clusterProcs,
      lookupReg (applyPending (StopProcess env pm name).1
        (StopProcess env pm name).2.1) w.config.name = none) := by
  obtain ⟨len, hlen⟩ : ∃ k, pm.length = k + 1 := by
    cases pm with
    | nil => simp [lookupReg] at hlk
    | cons e t => exact ⟨t.length, rfl⟩
  have hisE : master.clusterProcs.isEmpty = false := by
    cases hmp : master.clusterProcs with
    | nil => exact absurd hmp hne
    | cons a l => rfl
  obtain ⟨hpend, hframe, hstopped⟩ :=
    stopChildren_spec env len hsig master.clusterProcs pm hch
  have hstop : StopProcess env pm name =
      (removeReg (stopChildren (stopGo env (len + 1))
          master.clusterProcs pm).1 name,
       (stopChildren (stopGo env (len + 1)) master.clusterProcs pm).2,
       .ok ()) := by
    unfold StopProcess
    rw [hlen, stopGo_succ, hlk]
    simp only [hisE, Bool.false_eq_true, if_false]
  have hwname : ∀ w ∈ master.clusterProcs, w.config.name ≠ name := by
    intro w hw he
    obtain ⟨r, hr, hrc⟩ := hch w hw
    rw [he, hlk] at hr
    have : r = master := (Option.some.inj hr).symm
    rw [this] at hrc
    exact hne hrc
  refine ⟨by rw [hstop], by rw [hstop, lookupReg_remove, if_pos rfl],
    ?_, by rw [hstop]; exact hpend, ?_⟩
  · intro w hw
    obtain ⟨r, hr, hrs⟩ := hstopped w hw
    refine ⟨r, ?_, hrs⟩
    rw [hstop, lookupReg_remove, if_neg (hwname w hw)]
    exact hr
  · intro w hw
    apply lookupReg_applyPending_mem
    rw [hstop, hpend]
    exact List.mem_map.mpr ⟨w, hw, rfl⟩

/-- C6 (amended) witness: stopping the started two-worker `web` cluster. -/
theorem c6_cluster_stop_removes_parent_synchronously_witness :
    (StopProcess envAllOk pmWeb "web").2.2 = .ok () ∧
    lookupReg (StopProcess envAllOk pmWeb "web").1 "web" = none ∧
    (∀ w ∈ masterWeb.clusterProcs, ∃ r,
      lookupReg (StopProcess envAllOk pmWeb "web").1 w.config.name =
        some r ∧ r.status = "stopped") ∧
    (StopProcess envAllOk pmWeb "web").2.1 =
      masterWeb.clusterProcs.map (fun w => w.config.name) ∧
    (∀ w ∈ masterWeb.clusterProcs,
      lookupReg (applyPending (StopProcess envAllOk pmWeb "web").1
        (StopProcess envAllOk pmWeb "web").2.1) w.config.name = none) :=
  c6_cluster_stop_removes_parent_synchronously envAllOk pmWeb "web"
    masterWeb (by decide) (by decide)
    (by
      intro w hw
      have hw' : w = workerRec envAllOk cfgWeb 0 ∨
          w = workerRec envAllOk cfgWeb 1 := by
        simpa [masterWeb] using hw
      rcases hw' with rfl | rfl
      · exact ⟨workerRec envAllOk cfgWeb 0, by decide, by decide⟩
      · exact ⟨workerRec envAllOk cfgWeb 1, by decide, by decide⟩)
    (fun _ => rfl)

/-- C8: for a known non-cluster record and stream in {stdout, stderr},
`logs(name, stream, n)` returns the whole file when `n ≤ 0`; for `n > 0`
it returns a suffix of the file of length `min n (file length)` — the last
`n` lines when the file is longer than `n`, the whole file otherwise; a
missing log file is an error, and any other stream name is an error. -/
theorem c8_getLogs_tail_semantics (logsPath : String) (pm : Registry)
    (name : String) (proc : ManagedProcess)
    (hlk : lookupReg pm name = some proc) (hnc : proc.clusterProcs = [])
    (hname : proc.config.name = name)
    (hout : proc.config.logStdout = "")
    (herr : proc.config.logStderr = "") :
    (∀ (L : List String) (n : Int), n ≤ 0 →
      GetLogs (fsSingle (logsPath ++ "/" ++ name ++ ".out.log") L)
        logsPath pm name "stdout" n = .ok L) ∧
    (∀ (L : List String) (n : Int), 0 < n → ∃ T,
      GetLogs (fsSingle (logsPath ++ "/" ++ name ++ ".out.log") L)
        logsPath pm name "stdout" n = .ok T ∧ T.IsSuffix L ∧
      T.length = min n.toNat L.length) ∧
    (∀ (L : List String) (n : Int), n ≤ 0 →
      GetLogs (fsSingle (logsPath ++ "/" ++ name ++ ".err.log") L)
        logsPath pm name "stderr" n = .ok L) ∧
    (∀ (L : List String) (n : Int), 0 < n → ∃ T,
      GetLogs (fsSingle (logsPath ++ "/" ++ name ++ ".err.log") L)
        logsPath pm name "stderr" n = .ok T ∧ T.IsSuffix L ∧
      T.length = min n.toNat L.length) ∧
    (∀ n : Int, ∃ e,
      GetLogs (fun _ => none) logsPath pm name "stdout" n = .error e) ∧
    (∀ n : Int, ∃ e,
      GetLogs (fun _ => none) logsPath pm name "stderr" n = .error e) ∧
    (∀ (s : String) (n : Int) (fs : String → Option (List String)),
      s ≠ "stdout" → s ≠ "stderr" → ∃ e,
      GetLogs fs logsPath pm name s n = .error e) := by
  have hfs : ∀ L, fsSingle (logsPath ++ "/" ++ name ++ ".out.log") L
      (logsPath ++ "/" ++ name ++ ".out.log") = some L := by
    intro L
    unfold fsSingle
    rw [if_pos rfl]
  have hfs2 : ∀ L, fsSingle (logsPath ++ "/" ++ name ++ ".err.log") L
      (logsPath ++ "/" ++ name ++ ".err.log") = some L := by
    intro L
    unfold fsSingle
    rw [if_pos rfl]
  refine ⟨?_, ?_, ?_, ?_, ?_, ?_, ?_⟩
  · intro L n hn
    rw [GetLogs_stdout_eq _ _ _ _ proc _ hlk hnc hname hout]
    exact (readLastLines_some _ _ L (hfs L) n).1 hn
  · intro L n hn
    rw [GetLogs_stdout_eq _ _ _ _ proc _ hlk hnc hname hout]
    exact (readLastLines_some _ _ L (hfs L) n).2 hn
  · intro L n hn
    rw [GetLogs_stderr_eq _ _ _ _ proc _ hlk hnc hname herr]
    exact (readLastLines_some _ _ L (hfs2 L) n).1 hn
  · intro L n hn
    rw [GetLogs_stderr_eq _ _ _ _ proc _ hlk hnc hname herr]
    exact (readLastLines_some _ _ L (hfs2 L) n).2 hn
  · intro n
    rw [GetLogs_stdout_eq _ _ _ _ proc _ hlk hnc hname hout]
    exact readLastLines_none _ _ rfl n
  · intro n
    rw [GetLogs_stderr_eq _ _ _ _ proc _ hlk hnc hname herr]
    exact readLastLines_none _ _ rfl n
  · intro s n fs h1 h2
    exact GetLogs_bad_stream fs logsPath pm name s proc n hlk hnc h1 h2

/-- C8 witness: the `svc` record in `pmSvc` with log directory `/logs`. -/
theorem c8_getLogs_tail_semantics_witness :
    (∀ (L : List String) (n : Int), n ≤ 0 →
      GetLogs (fsSingle ("/logs" ++ "/" ++ "svc" ++ ".out.log") L)
        "/logs" pmSvc "svc" "stdout" n = .ok L) ∧
    (∀ (L : List String) (n : Int), 0 < n → ∃ T,
      GetLogs (fsSingle ("/logs" ++ "/" ++ "svc" ++ ".out.log") L)
        "/logs" pmSvc "svc" "stdout" n = .ok T ∧ T.IsSuffix L ∧
      T.length = min n.toNat L.length) ∧
    (∀ (L : List String) (n : Int), n ≤ 0 →
      GetLogs (fsSingle ("/logs" ++ "/" ++ "svc" ++ ".err.log") L)
        "/logs" pmSvc "svc" "stderr" n = .ok L) ∧
    (∀ (L : List String) (n : Int), 0 < n → ∃ T,
      GetLogs (fsSingle ("/logs" ++ "/" ++ "svc" ++ ".err.log") L)
        "/logs" pmSvc "svc" "stderr" n = .ok T ∧ T.IsSuffix L ∧
      T.length = min n.toNat L.length) ∧
    (∀ n : Int, ∃ e,
      GetLogs (fun _ => none) "/logs" pmSvc "svc" "stdout" n = .error e) ∧
    (∀ n : Int, ∃ e,
      GetLogs (fun _ => none) "/logs" pmSvc "svc" "stderr" n = .error e) ∧
    (∀ (s : String) (n : Int) (fs : String → Option (List String)),
      s ≠ "stdout" → s ≠ "stderr" → ∃ e,
      GetLogs fs "/logs" pmSvc "svc" s n = .error e) :=
  c8_getLogs_tail_semantics "/logs" pmSvc "svc" procSvc (by decide)
    (by decide) (by decide) (by decide) (by decide)

/-- C9 (amended): calling `addScript` with a non-empty cron expression the
cron engine rejects does return an error to the caller, but the script has
already been persisted by then: `Add` saves the record before scheduling
and does not roll the save back, so after the failed call a stored record
for the script name exists. -/
theorem c9_add_bad_cron_errors_but_persists (env : ScriptEnv)
    (st : ScriptStore) (name file schedule process : String)
    (hfresh : lookupScript st name = none)
    (hfile : env.fileExists file = true)
    (hproc : process = "" ∨ env.processKnown process = true)
    (hsave : env.saveOk name = true)
    (hsched : schedule ≠ "")
    (hcron : env.cronAccepts schedule = false) :
    (ScriptService.Add env st name file schedule process).2 =
      .error ("failed to schedule script: " ++ name) ∧
    lookupScript (ScriptService.Add env st name file schedule process).1
      name =
      some { name := name, file := file, schedule := schedule,
             process := process } := by
  have he : ScriptService.Add env st name file schedule process =
      (insertScript st name
        { name := name, file := file, schedule := schedule,
          process := process },
       .error ("failed to schedule script: " ++ name)) := by
    unfold ScriptService.Add
    rw [if_neg (by simp [hfresh]), if_neg (by simp [hfile]),
      if_neg (by
        rintro ⟨h1, h2⟩
        rcases hproc with h3 | h3
        · exact h1 h3
        · exact h2 h3),
      if_neg (by simp [hsave])]
    simp only [if_pos (show schedule ≠ "" ∧
      ¬ env.cronAccepts schedule = true from ⟨hsched, by simp [hcron]⟩)]
  rw [he]
  exact ⟨rfl, by rw [lookupScript_insert, if_pos rfl]⟩

/-- C9 (amended) witness: a fresh script with a rejected cron expression:
the call errors and the record is nevertheless stored. -/
theorem c9_add_bad_cron_errors_but_persists_witness :
    (ScriptService.Add envScrBadCron [] "report" "r.sh" "@bad" "").2 =
      .error ("failed to schedule script: " ++ "report") ∧
    lookupScript
      (ScriptService.Add envScrBadCron [] "report" "r.sh" "@bad" "").1
      "report" =
      some { name := "report", file := "r.sh", schedule := "@bad",
             process := "" } :=
  c9_add_bad_cron_errors_but_persists envScrBadCron [] "report" "r.sh"
    "@bad" "" (by decide) (by decide) (Or.inl rfl) (by decide) (by decide)
    (by decide)

/-- C5: the claim says that with `cluster.instances = k ≥ 2`, `start`
synthesizes worker descriptors `{name}-worker-{i}` with
`cluster.instances = 0`, starts each through the ordinary start path, and
inserts a parent record with no PID, status `running`, and the workers as
children.  The code never gets there: `StartProcess` holds `pm.mutex`
(write-locked, deferred unlock) across `startClusterProcess`, and the
first worker's recursive `pm.StartProcess` call re-locks the
non-reentrant mutex and blocks forever — every cluster start deadlocks
before a single worker is spawned, and the parent record is never
inserted, contradicting the spec's cluster expansion and the code's own
`TestClusterProcess`. -/
theorem c5_cluster_start_deadlocks (env : OSEnv) (f : Nat) (pm : Registry)
    (cfg : ProcessConfig) (hk : 2 ≤ cfg.clusterInstances)
    (hnr : isRunningIn pm cfg.name = false) :
    startGo env (f + 1) false pm cfg = .blocked ∧
    startGo env f true pm (workerConfig cfg 0) = .blocked :=
  ⟨startGo_cluster_blocked env f pm cfg hk hnr,
   startGo_locked env f pm (workerConfig cfg 0)⟩

/-- C5 witness: starting the two-instance `web` cluster into an empty
registry deadlocks, blocking at worker 0's recursive call. -/
theorem c5_cluster_start_deadlocks_witness :
    startGo envAllOk 2 false [] cfgWeb = .blocked ∧
    startGo envAllOk 1 true [] (workerConfig cfgWeb 0) = .blocked :=
  c5_cluster_start_deadlocks envAllOk 1 [] cfgWeb (by decide) (by decide)

/-- C10: the claim says cluster `start` returns the parent record with a
nil error even when spawning some or all workers fails, a failed worker
being omitted from `children`.  In the program no such return ever
happens: whatever the oracle — in particular one where every worker spawn
would fail, the scenario the claim describes — the call deadlocks
re-locking `pm.mutex` at the first worker's recursive `pm.StartProcess`,
so no parent record, with or without children, is ever produced. -/
theorem c10_cluster_start_never_returns (env env0 : OSEnv) (f : Nat)
    (pm : Registry) (cfg : ProcessConfig)
    (hk : 2 ≤ cfg.clusterInstances)
    (hnr : isRunningIn pm cfg.name = false)
    (_h0 : ∀ c, env0.spawn c = none) :
    startGo env (f + 1) false pm cfg = .blocked ∧
    startGo env0 (f + 1) false pm cfg = .blocked :=
  ⟨startGo_cluster_blocked env f pm cfg hk hnr,
   startGo_cluster_blocked env0 f pm cfg hk hnr⟩

/-- C10 witness: the `web` cluster start blocks both under the all-success
oracle and under the oracle where every spawn fails. -/
theorem c10_cluster_start_never_returns_witness :
    startGo envAllOk 2 false [] cfgWeb = .blocked ∧
    startGo envNoSpawn 2 false [] cfgWeb = .blocked :=
  c10_cluster_start_never_returns envAllOk envNoSpawn 1 [] cfgWeb
    (by decide) (by decide) (fun _ => rfl)

end Gem
